import Mathlib

/-!
Verification development for the ODL discretization and ufunc-dispatch layer.

Shallow embedding of:
  * `odl/discr/discretization.py` — `RawDiscretization`, `Discretization`,
    `dspace_type`, element resolution, equality, vector copy;
  * `odl/discr/default.py` — `DiscreteL2.__init__` interpolation handling;
  * `odl/util/ufuncs.py` — `wrap_ufunc_discretelp`, `wrap_ufunc_productspace`,
    `wrap_reduction_numpy`.

External collaborators (abstract sets, n-tuple data spaces, operators, the
numpy backend) are modelled as parameters: data records carry the attributes
the core reads (`dim`, `dtype`, `field`, capability flags, `domain`/`range`
of operators), and behaviour records carry the functions the core calls
(membership test, element construction, the tensor-level ufunc facade).
Python exceptions become an explicit error type returned through `Except`,
with one constructor per failure kind of the spec's error taxonomy.
-/

namespace ODL

/-- Element data types of the data spaces (numpy dtypes). -/
inductive DTy
  | float64
  | complex128
  | int32
deriving DecidableEq, Repr

/-- Axis-flattening convention: row-major (numpy order C) or
column-major (numpy order F). -/
inductive Order
  | rowMajor
  | colMajor
deriving DecidableEq, Repr

/-- Scalar-field kinds the backend resolver distinguishes
(`RealNumbers` / `ComplexNumbers` classes in the source). -/
inductive FieldKind
  | real
  | complex
deriving DecidableEq, Repr

/-- Abstract (undiscretized) space: a `Set`, optionally a `LinearSpace`
with a scalar field, optionally an `L2`-type space.  `field = none` models
absence of the `field` attribute. -/
structure USpace where
  uid : Nat
  field : Option FieldKind
  isLinear : Bool
  isL2 : Bool
deriving DecidableEq, Repr

/-- Data space: an `NtuplesBase` instance with dimension and dtype;
`isFn` models the `FnBase` capability, `field` its scalar field. -/
structure DSpace where
  did : Nat
  dim : Nat
  dtype : DTy
  field : Option FieldKind
  isFn : Bool
deriving DecidableEq, Repr

/-- Restriction operator data: an `Operator` with `domain` an abstract
space and `range` a data space; `order = none` models absence of the
`order` attribute; `tag` identifies the concrete operator for equality. -/
structure ROp where
  dom : USpace
  ran : DSpace
  order : Option Order
  isLinear : Bool
  tag : Nat
deriving DecidableEq, Repr

/-- Extension operator data: an `Operator` with `domain` a data space and
`range` an abstract space. -/
structure EOp where
  dom : DSpace
  ran : USpace
  order : Option Order
  isLinear : Bool
  tag : Nat
deriving DecidableEq, Repr

/-- Failure kinds of the core, following the spec's error taxonomy
(section 7); each corresponds to one `raise` site in the source. -/
inductive DErr
  | invalidSpaceType
  | domainRangeMismatch
  | orderMismatch
  | fieldMismatch
  | notLinearOperator
  | unsupportedInterpolation
  | notYetImplemented
  | restrictionUnavailable
  | extensionUnavailable
  | unsupportedBackend
  | backendUnavailable
  | unsupportedFieldForBackend
deriving DecidableEq, Repr

/-- A constructed discretization: attributes set at the end of
`RawDiscretization.__init__` (lines 152-157), with `dim`/`dtype` passed to
`NtuplesBase.__init__` from the data space. -/
structure RawDiscr where
  dim : Nat
  dtype : DTy
  uspace : USpace
  dspace : DSpace
  restr : Option ROp
  ext : Option EOp
  order : Order
deriving DecidableEq, Repr

/-- Validation of a supplied restriction operator,
`RawDiscretization.__init__` lines 112-130: domain must equal the
undiscretized space, range the data space, and a declared `order`
attribute must match the discretization's order. -/
def checkRestr (uspace : USpace) (dspace : DSpace) (order : Order) :
    Option ROp → Option DErr
  | none => none
  | some r =>
    if r.dom ≠ uspace then some .domainRangeMismatch
    else if r.ran ≠ dspace then some .domainRangeMismatch
    else if (match r.order with
             | some ro => decide (ro ≠ order)
             | none => false) then some .orderMismatch
    else none

/-- Validation of a supplied extension operator,
`RawDiscretization.__init__` lines 132-150. -/
def checkExt (uspace : USpace) (dspace : DSpace) (order : Order) :
    Option EOp → Option DErr
  | none => none
  | some e =>
    if e.dom ≠ dspace then some .domainRangeMismatch
    else if e.ran ≠ uspace then some .domainRangeMismatch
    else if (match e.order with
             | some eo => decide (eo ≠ order)
             | none => false) then some .orderMismatch
    else none

/-- `RawDiscretization.__init__` (discretization.py lines 73-157): validate
the operators, then record the attributes, taking `dim` and `dtype` from
the data space (`super().__init__(dspace.dim, dspace.dtype)`, line 152).
The `isinstance(uspace, Set)` / `isinstance(dspace, NtuplesBase)` checks
hold by typing in the model; the order-string check is absorbed by the
`Order` type. -/
def mkRawDiscr (uspace : USpace) (dspace : DSpace)
    (restr : Option ROp) (ext : Option EOp) (order : Order) :
    Except DErr RawDiscr :=
  match checkRestr uspace dspace order restr with
  | some e => .error e
  | none =>
    match checkExt uspace dspace order ext with
    | some e => .error e
    | none =>
      .ok { dim := dspace.dim, dtype := dspace.dtype,
            uspace := uspace, dspace := dspace,
            restr := restr, ext := ext, order := order }

/-- The linearity test `isinstance(restr, LinearOperator)` applied to an
optional restriction operator: vacuously passed when absent. -/
def linearIfPresentR : Option ROp → Bool
  | some r => r.isLinear
  | none => true

/-- The linearity test `isinstance(ext, LinearOperator)` applied to an
optional extension operator: vacuously passed when absent. -/
def linearIfPresentE : Option EOp → Bool
  | some e => e.isLinear
  | none => true

/-- `Discretization.__init__` (discretization.py lines 339-391): first the
`RawDiscretization` initialization runs (line 367), then linearity of the
undiscretized space, the `FnBase` capability of the data space, equality
of the scalar fields, and linearity of the supplied operators are
checked. -/
def mkDiscretization (uspace : USpace) (dspace : DSpace)
    (restr : Option ROp) (ext : Option EOp) (order : Order) :
    Except DErr RawDiscr :=
  match mkRawDiscr uspace dspace restr ext order with
  | .error e => .error e
  | .ok disc =>
    if ¬ uspace.isLinear then .error .invalidSpaceType
    else if ¬ dspace.isFn then .error .invalidSpaceType
    else if uspace.field ≠ dspace.field then .error .fieldMismatch
    else if ¬ linearIfPresentR restr then .error .notLinearOperator
    else if ¬ linearIfPresentE ext then .error .notLinearOperator
    else .ok disc

/-- Behaviour of a data space consumed by element resolution: membership
test (`inp in self.dspace`), element construction from an array
(`dspace.element(arr)`) and the default element (`dspace.element()`).
External collaborator, kept abstract. -/
structure DImpl (V : Type) where
  mem : V → Bool
  element : V → V
  defaultElem : V

/-- Behaviour of an abstract space consumed by element resolution:
membership test (`inp in self.uspace`) and element construction
(`uspace.element(inp)`).  External collaborator, kept abstract. -/
structure UImpl (V : Type) where
  mem : V → Bool
  element : V → V

/-- An element of a discretization: `RawDiscretization.Vector` wraps the
space and exactly one data-space element (the ntuple). -/
structure DVec (V : Type) where
  space : RawDiscr
  ntuple : V
deriving DecidableEq, Repr

/-- `RawDiscretization.element` (discretization.py lines 195-222).
`rApply` is the action of a restriction operator, `asFlat d o v` models
`np.asarray(v, dtype=d).reshape(-1, order=o)`; both are external.
The branch structure mirrors the source: `inp is None`, then
`inp in self.dspace` (direct wrap), then `inp in self.uspace`
(restriction of `uspace.element(inp)`, failing when no restriction
operator is set, property lines 174-180), else array coercion with the
data space's dtype and the discretization's order. -/
def RawDiscr.element {V : Type} (disc : RawDiscr)
    (dimpl : DImpl V) (uimpl : UImpl V)
    (rApply : ROp → V → V) (asFlat : DTy → Order → V → V)
    (inp : Option V) : Except DErr (DVec V) :=
  match inp with
  | none => .ok ⟨disc, dimpl.defaultElem⟩
  | some v =>
    if dimpl.mem v then .ok ⟨disc, v⟩
    else if uimpl.mem v then
      match disc.restr with
      | some r => .ok ⟨disc, rApply r (uimpl.element v)⟩
      | none => .error .restrictionUnavailable
    else .ok ⟨disc, dimpl.element (asFlat disc.dspace.dtype disc.order v)⟩

/-- `RawDiscretization.equals` (discretization.py lines 224-239), with
Python's left-to-right short-circuit evaluation made explicit.
Modelled from the spec: the external `NtuplesBase.equals` superclass test
(not under src) is "dimension/dtype match".  After the `uspace` and
`dspace` conjuncts, `other.restriction == self.restriction` evaluates the
`restriction` property on `other` and then on `self`; the property
(lines 174-180) raises when the operator is unset, before any comparison
happens — likewise for `extension` (lines 182-188). -/
def RawDiscr.equalsE (self other : RawDiscr) : Except DErr Bool :=
  if ¬ (other.dim = self.dim ∧ other.dtype = self.dtype) then .ok false
  else if other.uspace ≠ self.uspace then .ok false
  else if other.dspace ≠ self.dspace then .ok false
  else
    match other.restr, self.restr with
    | none, _ => .error .restrictionUnavailable
    | some _, none => .error .restrictionUnavailable
    | some r2, some r1 =>
      if r2 ≠ r1 then .ok false
      else
        match other.ext, self.ext with
        | none, _ => .error .extensionUnavailable
        | some _, none => .error .extensionUnavailable
        | some e2, some e1 => .ok (e2 = e1)

/-- Sample abstract space used in concrete witnesses. -/
def sampleUSpace : USpace := ⟨1, some .real, true, true⟩

/-- Sample data space used in concrete witnesses. -/
def sampleDSpace : DSpace := ⟨2, 4, .float64, some .real, true⟩

/-- Sample restriction operator used in concrete witnesses. -/
def sampleROp : ROp := ⟨sampleUSpace, sampleDSpace, some .rowMajor, true, 7⟩

/-- Sample extension operator used in concrete witnesses. -/
def sampleEOp : EOp := ⟨sampleDSpace, sampleUSpace, some .rowMajor, true, 8⟩

/-- Sample discretization (the one produced by `mkDiscretization` on the
sample spaces and operators). -/
def sampleDiscr : RawDiscr :=
  { dim := 4, dtype := .float64, uspace := sampleUSpace,
    dspace := sampleDSpace, restr := some sampleROp,
    ext := some sampleEOp, order := .rowMajor }

/-- Sample data-space behaviour over `Nat`-coded values: values below 10
are members, element construction adds 100, the default element is 0. -/
def sampleDImpl : DImpl Nat :=
  { mem := fun v => decide (v < 10), element := fun v => v + 100,
    defaultElem := 0 }

/-- Sample abstract-space behaviour over `Nat`-coded values: values below
20 are members, element construction adds 1. -/
def sampleUImpl : UImpl Nat :=
  { mem := fun v => decide (v < 20), element := fun v => v + 1 }

/-- Sample restriction-operator action: add the operator's tag. -/
def sampleRApply : ROp → Nat → Nat := fun r v => v + r.tag

/-- Sample array coercion: double the coded value. -/
def sampleAsFlat : DTy → Order → Nat → Nat := fun _ _ v => 2 * v

/-- Concrete data-space types returned by the backend resolver. -/
inductive SpaceConstr
  | rnSpace
  | cnSpace
  | ntuplesSpace
  | cudaRnSpace
  | cudaNtuplesSpace
deriving DecidableEq, Repr

/-- The two-level lookup table `spacetype_map` of `dspace_type`
(discretization.py lines 459-462); the Python value `None` in a table
cell becomes `none`.  Outer keys other than the two recognized backends
are unreachable (the impl check precedes the lookup). -/
def spacetypeMap : String → Option FieldKind → Option SpaceConstr
  | "numpy", some .real => some .rnSpace
  | "numpy", some .complex => some .cnSpace
  | "numpy", none => some .ntuplesSpace
  | "cuda", some .real => some .cudaRnSpace
  | "cuda", some .complex => none
  | "cuda", none => some .cudaNtuplesSpace
  | _, _ => none

/-- `dspace_type` (discretization.py lines 436-470).  `cudaAvailable`
models the import-time flag `CUDA_AVAILABLE`; `space.field` models
`None if not hasattr(space, 'field') else type(space.field)`.  The impl
identifier is checked first, then availability of the cuda backend, and
only then is the table consulted; a `None` table cell raises
`NotImplementedError` (the unsupported-field-for-backend error). -/
def dspaceType (cudaAvailable : Bool) (space : USpace) (impl : String) :
    Except DErr SpaceConstr :=
  if impl ≠ "numpy" ∧ impl ≠ "cuda" then .error .unsupportedBackend
  else if impl = "cuda" ∧ ¬ cudaAvailable then .error .backendUnavailable
  else
    match spacetypeMap impl space.field with
    | some st => .ok st
    | none => .error .unsupportedFieldForBackend

/-- Decidable equality for `Except` results, used to evaluate the model
on concrete inputs. -/
instance {ε α : Type} [DecidableEq ε] [DecidableEq α] :
    DecidableEq (Except ε α) := fun a b =>
  match a, b with
  | .error e1, .error e2 =>
    if h : e1 = e2 then isTrue (by rw [h])
    else isFalse (by intro hh; cases hh; exact h rfl)
  | .error _, .ok _ => isFalse (by intro hh; cases hh)
  | .ok _, .error _ => isFalse (by intro hh; cases hh)
  | .ok a1, .ok a2 =>
    if h : a1 = a2 then isTrue (by rw [h])
    else isFalse (by intro hh; cases hh; exact h rfl)

/-- The module-level tuple `_supported_interp = ('nearest',)`
(default.py line 37). -/
def supportedInterp : List String := ["nearest"]

/-- Modelled from the spec: `GridCollocation` (odl.discr.operators, not
under src) — "builds the restriction operator as nearest-sample
collocation": a linear operator from the continuous space to the data
space, carrying the sampling grid (as its tag) and the axis order. -/
def GridCollocation (l2space : USpace) (grid : Nat) (dspace : DSpace)
    (order : Order) : ROp :=
  ⟨l2space, dspace, some order, true, grid⟩

/-- Modelled from the spec: `NearestInterpolation` (odl.discr.operators,
not under src) — "the extension operator as nearest-neighbor
interpolation": a linear operator from the data space back to the
continuous space. -/
def NearestInterpolation (l2space : USpace) (grid : Nat) (dspace : DSpace)
    (order : Order) : EOp :=
  ⟨dspace, l2space, some order, true, grid⟩

/-- `DiscreteL2.__init__` (default.py lines 44-83): check the `L2`
capability; check membership of `interp` in `_supported_interp`
(ValueError — the unsupported-interpolation error — otherwise, lines
71-73); build the `GridCollocation` restriction; branch on
`interp == 'nearest'` (the only member of `_supported_interp`), the else
branch raising a bare `NotImplementedError` (line 81); finally call
`Discretization.__init__` without forwarding the order keyword (line 83),
so the discretization itself always gets the default row-major order
while the operators carry the requested one. -/
def mkDiscreteL2 (l2space : USpace) (grid : Nat) (dspace : DSpace)
    (interp : String) (order : Order) : Except DErr RawDiscr :=
  if ¬ l2space.isL2 then .error .invalidSpaceType
  else if interp ∉ supportedInterp then .error .unsupportedInterpolation
  else
    let restriction := GridCollocation l2space grid dspace order
    if interp = "nearest" then
      let extension := NearestInterpolation l2space grid dspace order
      mkDiscretization l2space dspace (some restriction) (some extension)
        .rowMajor
    else .error .notYetImplemented

/-- Sample discretization built without restriction and extension
operators (valid for `mkDiscretization`). -/
def discNoOps : RawDiscr :=
  { dim := 4, dtype := .float64, uspace := sampleUSpace,
    dspace := sampleDSpace, restr := none, ext := none,
    order := .rowMajor }

/-- Behaviour of an `FnBase` data space consumed by the linear-space
primitives of `Discretization` (external collaborator): `zero`,
`_lincomb`, `_dist`, `_norm`, `_inner`, `_multiply` on raw ntuples, with
scalars in `S`. -/
structure FnImpl (S V : Type) where
  zero : V
  lincomb : S → V → S → V → V
  dist : V → V → S
  norm : V → S
  inner : V → V → S
  multiply : V → V → V

/-- `Discretization.zero` (discretization.py lines 394-396): wrap
`dspace.zero()`. -/
def Discretization.zero {S V : Type} (disc : RawDiscr)
    (impl : FnImpl S V) : DVec V :=
  ⟨disc, impl.zero⟩

/-- `Discretization._lincomb` (lines 398-400): delegate to
`dspace._lincomb` on the unwrapped ntuples; the result lands in `z`'s
ntuple. -/
def Discretization.lincomb {S V : Type} (_disc : RawDiscr)
    (impl : FnImpl S V) (z : DVec V) (a : S) (x : DVec V) (b : S)
    (y : DVec V) : DVec V :=
  { z with ntuple := impl.lincomb a x.ntuple b y.ntuple }

/-- `Discretization._dist` (lines 402-406): delegate to `dspace._dist` on
the unwrapped ntuples; the source takes nothing from the continuous
space (the correspondence-principle metric is an open TODO there). -/
def Discretization.dist {S V : Type} (_disc : RawDiscr)
    (impl : FnImpl S V) (x y : DVec V) : S :=
  impl.dist x.ntuple y.ntuple

/-- `Discretization._norm` (lines 408-412): delegate to `dspace._norm`. -/
def Discretization.norm {S V : Type} (_disc : RawDiscr)
    (impl : FnImpl S V) (x : DVec V) : S :=
  impl.norm x.ntuple

/-- `Discretization._inner` (lines 414-418): delegate to
`dspace._inner`. -/
def Discretization.inner {S V : Type} (_disc : RawDiscr)
    (impl : FnImpl S V) (x y : DVec V) : S :=
  impl.inner x.ntuple y.ntuple

/-- `Discretization._multiply` (lines 420-422): delegate to
`dspace._multiply`; the result lands in `z`'s ntuple. -/
def Discretization.multiply {S V : Type} (_disc : RawDiscr)
    (impl : FnImpl S V) (z x y : DVec V) : DVec V :=
  { z with ntuple := impl.multiply x.ntuple y.ntuple }

/-- Backing tensor values (the inner tensor of a DiscreteLp element). -/
abbrev Tensor := List Int

/-- A DiscreteLp element: an element id (distinguishing buffers), the id
of its space, and the inner backing tensor. -/
structure LpElem where
  eid : Nat
  spaceId : Nat
  tensor : Tensor
deriving DecidableEq, Repr

/-- `space.element(arr)` of the discretized space: wrap data in a fresh
element of the space. -/
def lpSpaceElement (spaceId fresh : Nat) (t : Tensor) : LpElem :=
  ⟨fresh, spaceId, t⟩

/-- Second operand of a two-input ufunc on a DiscreteLp element: another
element or a scalar-like value. -/
inductive LpOperand
  | elemOp (e : LpElem)
  | scalarOp (v : Int)
deriving DecidableEq, Repr

/-- What reaches the tensor-level method as second operand: the unwrapped
tensor of a member of the same space, or the original value unchanged. -/
inductive LpArg
  | tens (t : Tensor)
  | asIs (o : LpOperand)
deriving DecidableEq, Repr

/-- The bound ufunc methods of the inner tensor's own facade (external
collaborator): `call1` the raw result of a 1-in 1-out operation, `call2`
of a 1-in 2-out operation, `callB` of a 2-in 1-out operation.  When an
out tensor is supplied, the backend writes the raw result into it, so
the written value is the raw result. -/
structure TFacade where
  call1 : Tensor → Tensor
  call2 : Tensor → Tensor × Tensor
  callB : Tensor → LpArg → Tensor

/-- `wrap_ufunc_discretelp`, 1-in 1-out case (ufuncs.py lines 247-253):
get the bound method of the inner backing tensor's facade; with no out,
wrap the raw result via `space.element`; with out, pass `out.tensor` as
the backend output target and return `out` itself. -/
def wrapUfuncDiscretelp11 (f : TFacade) (self : LpElem)
    (out : Option LpElem) (fresh : Nat) : LpElem :=
  match out with
  | none => lpSpaceElement self.spaceId fresh (f.call1 self.tensor)
  | some o => { o with tensor := f.call1 self.tensor }

/-- `wrap_ufunc_discretelp`, 1-in 2-out case (lines 256-264): missing
outs are pre-allocated as fresh elements of the space (default data
`dflt`); both out tensors are passed as backend targets; the two buffers
are returned. -/
def wrapUfuncDiscretelp12 (f : TFacade) (self : LpElem)
    (out1 out2 : Option LpElem) (fresh1 fresh2 : Nat) (dflt : Tensor) :
    LpElem × LpElem :=
  let o1 := match out1 with
    | none => lpSpaceElement self.spaceId fresh1 dflt
    | some o => o
  let o2 := match out2 with
    | none => lpSpaceElement self.spaceId fresh2 dflt
    | some o => o
  let r := f.call2 self.tensor
  ({ o1 with tensor := r.1 }, { o2 with tensor := r.2 })

/-- `wrap_ufunc_discretelp`, 2-in 1-out case (lines 271-280): a second
operand that is a member of the element's space is unwrapped to its
tensor (`x2 = x2.tensor`), anything else is passed through unchanged;
then as in the 1-in 1-out case. -/
def wrapUfuncDiscretelp21 (f : TFacade) (self : LpElem) (x2 : LpOperand)
    (out : Option LpElem) (fresh : Nat) : LpElem :=
  let x2p : LpArg := match x2 with
    | .elemOp e =>
      if e.spaceId = self.spaceId then .tens e.tensor
      else .asIs (.elemOp e)
    | .scalarOp v => .asIs (.scalarOp v)
  match out with
  | none => lpSpaceElement self.spaceId fresh (f.callB self.tensor x2p)
  | some o => { o with tensor := f.callB self.tensor x2p }

/-- A product-space element: the id of its product space and the ordered
list of component elements (component values kept opaque as `Int`). -/
structure PElem where
  spaceId : Nat
  comps : List Int
deriving DecidableEq, Repr

/-- Second operand of a two-input ufunc on a product-space element. -/
inductive POperand
  | pelemOp (p : PElem)
  | scalarOp (v : Int)
deriving DecidableEq, Repr

/-- What reaches a component's facade as second operand: the matching
component of a member of the same product space, or the original operand
broadcast unchanged. -/
inductive PArg
  | compArg (c : Int)
  | otherArg (o : POperand)
deriving DecidableEq, Repr

/-- Membership test `x2 in self.elem.space` for the product space. -/
def pMember (spaceId : Nat) : POperand → Bool
  | .pelemOp p => decide (p.spaceId = spaceId)
  | .scalarOp _ => false

/-- Writing zipped results back into out components: Python's `zip`
truncates to the shortest input, so trailing components of a longer out
keep their old values. -/
def updateComps (oldComps newVals : List Int) : List Int :=
  newVals ++ oldComps.drop newVals.length

/-- The broadcast branch of `wrap_ufunc_productspace` (lines 352-360):
the second operand is not a member of the product space and is handed
unchanged to every component's facade; without out the results are
reassembled via `space.element`, with out they are written into the out
components. -/
def pBroadcast (cop : Int → PArg → Int) (self : PElem) (x2 : POperand)
    (out : Option PElem) : PElem :=
  match out with
  | none => ⟨self.spaceId, self.comps.map (fun x => cop x (.otherArg x2))⟩
  | some o =>
    let newVals :=
      List.zipWith (fun x _ => cop x (.otherArg x2)) self.comps o.comps
    { o with comps := updateComps o.comps newVals }

/-- `wrap_ufunc_productspace`, 2-in 1-out case (lines 342-360): `cop` is
the component-level bound operation.  A second operand that is a member
of the same product space is zipped component-wise; otherwise it is
broadcast unchanged; without out the component results are reassembled
into a new element of the product space via `space.element`. -/
def wrapUfuncProductspace21 (cop : Int → PArg → Int) (self : PElem)
    (x2 : POperand) (out : Option PElem) : PElem :=
  match x2 with
  | .pelemOp p =>
    if p.spaceId = self.spaceId then
      match out with
      | none =>
        ⟨self.spaceId,
         List.zipWith (fun x c => cop x (.compArg c)) self.comps p.comps⟩
      | some o =>
        let newVals :=
          List.zipWith (fun xc _ => cop xc.1 (.compArg xc.2))
            (List.zip self.comps p.comps) o.comps
        { o with comps := updateComps o.comps newVals }
    else pBroadcast cop self (.pelemOp p) out
  | .scalarOp v => pBroadcast cop self (.scalarOp v) out

/-- A raw numpy array: shape and flat data. -/
structure NDArr where
  shape : List Nat
  data : List Int
deriving DecidableEq, Repr

/-- Raw result of a numpy reduction: a scalar or an array
(`np.isscalar(out_arr)` distinguishes the two). -/
inductive RawRed
  | scalarV (v : Int)
  | arrV (a : NDArr)
deriving DecidableEq, Repr

/-- Space weightings of the numpy tensor backend:
`NumpyTensorSpaceArrayWeighting`, a constant weighting, and
`NumpyTensorSpaceNoWeighting` (the no-op weighting, carrying an
exponent). -/
inductive Weighting
  | arrayW (w : List Int)
  | constW (c : Int)
  | noW (expn : Option Int)
deriving DecidableEq, Repr

/-- A base tensor space: concrete kind (`type(self.elem.space)`), shape,
dtype, ordering, optional exponent and optional weighting. -/
structure TSpace where
  kind : Nat
  shape : List Nat
  dtype : DTy
  order : Order
  exponent : Option Int
  weighting : Option Weighting
deriving DecidableEq, Repr

/-- A base tensor element: element id (distinguishing buffers), its
space, and its raw data. -/
structure TElem where
  eid : Nat
  space : TSpace
  data : NDArr
deriving DecidableEq, Repr

/-- `out_space.element(out_arr)`: wrap a raw array as a fresh element of
the constructed space. -/
def tSpaceElement (sp : TSpace) (fresh : Nat) (a : NDArr) : TElem :=
  ⟨fresh, sp, a⟩

/-- The value deposited in a supplied out buffer by
`wrapped(self.elem, out=out.data)`: a scalar lands as a 0-d array. -/
def redIntoData : RawRed → NDArr
  | .scalarV v => ⟨[], [v]⟩
  | .arrV a => a

/-- Observable outcome of a reduction wrapper call: a bare scalar, a new
element together with the newly constructed space it lives in, or the
supplied buffer returned (no space construction on that path). -/
inductive RedReturn
  | scalarRet (v : Int)
  | newElemRet (outSpace : TSpace) (e : TElem)
  | bufRet (e : TElem)
deriving DecidableEq, Repr

/-- `wrap_reduction_numpy` (ufuncs.py lines 180-230): `wrapped` is the
numpy reduction (axis/keepdims folded into it), `dtypeArg` the optional
dtype keyword (`kwargs.get('dtype', self.elem.dtype)`).  With no out: a
scalar raw result is returned unchanged; otherwise a space of the same
concrete kind is constructed with the result's shape, the requested
dtype, the element's ordering, the originating space's exponent, and its
weighting — downgraded to the no-op weighting when it was an array
weighting — and the raw result is wrapped as an element of it.  With an
out buffer: the reduction writes into `out.data` and the same buffer is
returned. -/
def wrapReductionNumpy (wrapped : NDArr → RawRed) (self : TElem)
    (out : Option TElem) (dtypeArg : Option DTy) (fresh : Nat) :
    RedReturn :=
  let dtype := dtypeArg.getD self.space.dtype
  match out with
  | none =>
    match wrapped self.data with
    | .scalarV v => .scalarRet v
    | .arrV a =>
      let exponent := self.space.exponent
      let weighting := match self.space.weighting with
        | some (.arrayW _) => some (Weighting.noW exponent)
        | w => w
      let outSpace : TSpace :=
        ⟨self.space.kind, a.shape, dtype, self.space.order,
         exponent, weighting⟩
      .newElemRet outSpace (tSpaceElement outSpace fresh a)
  | some o => .bufRet { o with data := redIntoData (wrapped self.data) }

/-- A store of ntuple buffers: buffer id ↦ data.  Models the mutable
data-space vectors backing discretization elements. -/
def NtStore := Nat → List Int

/-- Data-space behaviour over buffer ids in a store: a buffer whose data
length equals the space dimension is a member of the data space. -/
def storeDImpl (s : NtStore) (dim : Nat) : DImpl Nat :=
  { mem := fun nid => decide ((s nid).length = dim),
    element := id, defaultElem := 0 }

/-- Abstract-space behaviour irrelevant for copying: no buffer id is a
member of the abstract space. -/
def noUImpl : UImpl Nat :=
  { mem := fun _ => false, element := id }

/-- Trivial restriction action on buffer ids (never reached by copy). -/
def trivialRApply : ROp → Nat → Nat := fun _ v => v

/-- Trivial array coercion on buffer ids (never reached by copy). -/
def trivialAsFlat : DTy → Order → Nat → Nat := fun _ _ v => v

/-- `ntuple.copy()` of the data-space vector (external contract, spec:
"copy returns a new element via a full data copy"): allocate a fresh
buffer holding the same data. -/
def ntupleCopy (s : NtStore) (fresh nid : Nat) : NtStore :=
  fun k => if k = fresh then s nid else s k

/-- `RawDiscretization.Vector.copy` (discretization.py lines 270-272):
`self.space.element(self.ntuple.copy())` — copy the backing ntuple into
a fresh buffer, then resolve it through the space's `element`, whose
data-space-membership branch wraps the copied buffer directly. -/
def vecCopy (s : NtStore) (fresh : Nat) (x : DVec Nat) :
    NtStore × Except DErr (DVec Nat) :=
  let s1 := ntupleCopy s fresh x.ntuple
  (s1,
   x.space.element (storeDImpl s1 x.space.dspace.dim) noUImpl
     trivialRApply trivialAsFlat (some fresh))

/-- `RawDiscretization.Vector.__setitem__` (lines 305-324) forwarded to
the backing ntuple: write value `v` at index `i` of buffer `nid`. -/
def setAt (s : NtStore) (nid i : Nat) (v : Int) : NtStore :=
  fun k => if k = nid then (s k).set i v else s k

theorem mkRawDiscr_ok_eq {u : USpace} {d : DSpace} {r : Option ROp}
    {e : Option EOp} {o : Order} {disc : RawDiscr}
    (h : mkRawDiscr u d r e o = .ok disc) :
    disc = { dim := d.dim, dtype := d.dtype, uspace := u, dspace := d,
             restr := r, ext := e, order := o } := by
  unfold mkRawDiscr at h
  cases hr : checkRestr u d o r with
  | some err => rw [hr] at h; cases h
  | none =>
    rw [hr] at h
    cases he : checkExt u d o e with
    | some err => rw [he] at h; cases h
    | none =>
      rw [he] at h
      cases h
      rfl

theorem mkDiscretization_ok_of {u : USpace} {d : DSpace} {r : Option ROp}
    {e : Option EOp} {o : Order} {disc : RawDiscr}
    (h : mkDiscretization u d r e o = .ok disc) :
    mkRawDiscr u d r e o = .ok disc := by
  unfold mkDiscretization at h
  cases hr : mkRawDiscr u d r e o with
  | error err => rw [hr] at h; cases h
  | ok disc1 =>
    rw [hr] at h
    have heq : disc1 = disc := by
      by_cases h1 : u.isLinear = true <;>
        by_cases h2 : d.isFn = true <;>
        by_cases h3 : u.field = d.field <;>
        by_cases h4 : linearIfPresentR r = true <;>
        by_cases h5 : linearIfPresentE e = true <;>
        (simp [h1, h2, h3, h4, h5] at h; try exact h)
    rw [heq]

/-- Claim C1: `RawDiscretization.element` follows a strict four-step
priority chain: no input yields a wrapper of the data space's default
element; an input that is a member of the data space is wrapped directly
without copying (regardless of abstract-space membership, so the data
space is tested first); otherwise an abstract-space member goes through
the restriction operator (error when none is configured); otherwise the
input is coerced to a flat array with the data space's dtype and the
discretization's axis ordering and wrapped. -/
theorem C1_element_priority_chain {V : Type} (disc : RawDiscr)
    (dimpl : DImpl V) (uimpl : UImpl V)
    (rApply : ROp → V → V) (asFlat : DTy → Order → V → V) :
    (disc.element dimpl uimpl rApply asFlat none =
      .ok ⟨disc, dimpl.defaultElem⟩) ∧
    (∀ v, dimpl.mem v = true →
      disc.element dimpl uimpl rApply asFlat (some v) = .ok ⟨disc, v⟩) ∧
    (∀ v r, dimpl.mem v = false → uimpl.mem v = true →
      disc.restr = some r →
      disc.element dimpl uimpl rApply asFlat (some v) =
        .ok ⟨disc, rApply r (uimpl.element v)⟩) ∧
    (∀ v, dimpl.mem v = false → uimpl.mem v = true → disc.restr = none →
      disc.element dimpl uimpl rApply asFlat (some v) =
        .error .restrictionUnavailable) ∧
    (∀ v, dimpl.mem v = false → uimpl.mem v = false →
      disc.element dimpl uimpl rApply asFlat (some v) =
        .ok ⟨disc, dimpl.element (asFlat disc.dspace.dtype disc.order v)⟩) := by
  refine ⟨rfl, ?_, ?_, ?_, ?_⟩
  · intro v hd
    simp [RawDiscr.element, hd]
  · intro v r hd hu hr
    simp [RawDiscr.element, hd, hu, hr]
  · intro v hd hu hr
    simp [RawDiscr.element, hd, hu, hr]
  · intro v hd hu
    simp [RawDiscr.element, hd, hu]

/-- Witness for C1: the restriction path on a concrete model, input 15
(not a data-space member, an abstract-space member):
`uspace.element(15) = 16`, restriction adds the tag 7, giving 23. -/
theorem C1_element_priority_chain_witness :
    sampleDiscr.element sampleDImpl sampleUImpl sampleRApply sampleAsFlat
      (some 15) = .ok ⟨sampleDiscr, 23⟩ := by
  have h := (C1_element_priority_chain sampleDiscr sampleDImpl sampleUImpl
    sampleRApply sampleAsFlat).2.2.1 15 sampleROp (by decide) (by decide)
    (by rfl)
  simpa [sampleRApply, sampleUImpl, sampleROp] using h

/-- Claim C4: the backend resolver `dspace_type` is a pure lookup with
three failure kinds: an unrecognized backend fails with the
unsupported-backend error; the cuda backend when unavailable fails with
the backend-unavailable error before any field classification; a
recognized, available backend whose table entry is missing (complex field
on cuda) fails with the unsupported-field-for-backend error; otherwise
the table entry for the backend and field class is returned. -/
theorem C4_dspace_type_resolver :
    (∀ (ca : Bool) (sp : USpace) (impl : String),
      impl ≠ "numpy" → impl ≠ "cuda" →
      dspaceType ca sp impl = .error .unsupportedBackend) ∧
    (∀ sp : USpace, dspaceType false sp "cuda" = .error .backendUnavailable) ∧
    (∀ sp : USpace, sp.field = some .complex →
      dspaceType true sp "cuda" = .error .unsupportedFieldForBackend) ∧
    (∀ (ca : Bool) (sp : USpace) (st : SpaceConstr),
      spacetypeMap "numpy" sp.field = some st →
      dspaceType ca sp "numpy" = .ok st) ∧
    (∀ (sp : USpace) (st : SpaceConstr),
      spacetypeMap "cuda" sp.field = some st →
      dspaceType true sp "cuda" = .ok st) := by
  refine ⟨?_, ?_, ?_, ?_, ?_⟩
  · intro ca sp impl h1 h2
    simp [dspaceType, h1, h2]
  · intro sp
    simp [dspaceType]
  · intro sp hf
    simp [dspaceType, hf, spacetypeMap]
  · intro ca sp st hm
    simp [dspaceType, hm]
  · intro sp st hm
    simp [dspaceType, hm]

/-- Witness for C4: backend identifier with no table entry at all. -/
theorem C4_dspace_type_resolver_witness :
    dspaceType true sampleUSpace "mkl" = .error .unsupportedBackend :=
  C4_dspace_type_resolver.1 true sampleUSpace "mkl" (by decide) (by decide)

/-- Claim C10: every successfully constructed discretization takes its
dimension and dtype from the data space: `disc.dspace` is the given data
space and `disc.dim = disc.dspace.dim`, `disc.dtype = disc.dspace.dtype`
(`super().__init__(dspace.dim, dspace.dtype)` in
`RawDiscretization.__init__`, repeated by `FnBase.__init__` in
`Discretization.__init__`); all operations of the model are pure, so
nothing changes these attributes afterwards. -/
theorem C10_dim_dtype_from_dspace
    (u : USpace) (d : DSpace) (r : Option ROp) (e : Option EOp) (o : Order)
    (disc : RawDiscr)
    (h : mkRawDiscr u d r e o = .ok disc ∨
         mkDiscretization u d r e o = .ok disc) :
    disc.dspace = d ∧ disc.dim = disc.dspace.dim ∧
      disc.dtype = disc.dspace.dtype := by
  have hr : mkRawDiscr u d r e o = .ok disc := by
    cases h with
    | inl h => exact h
    | inr h => exact mkDiscretization_ok_of h
  have := mkRawDiscr_ok_eq hr
  subst this
  exact ⟨rfl, rfl, rfl⟩

/-- Counterexample to claim C2: a validly constructed discretization
without restriction and extension operators is not equal to itself — the
equality test evaluates the `restriction` property on both operands once
dimension, dtype, uspace and dspace agree, and that property raises when
the operator is unset. -/
theorem C2_equalsE_counterexample :
    (mkDiscretization sampleUSpace sampleDSpace none none .rowMajor =
      .ok discNoOps) ∧
    (discNoOps.equalsE discNoOps = .error .restrictionUnavailable) ∧
    (discNoOps.equalsE discNoOps ≠ .ok true) :=
  ⟨rfl, rfl, by decide⟩

/-- Claim C2 (amended): the equality test returns true iff dimension,
dtype, uspace, dspace match and both sides' restriction and extension
operators are present and pairwise equal; the operators are accessed
unconditionally once the earlier conjuncts hold, so a missing restriction
(or extension) on either side raises the unavailable-operator error
instead of comparing; a mismatch in the earlier conjuncts short-circuits
to false without touching the operators; and every discretization validly
constructed with both operators is equal to itself. -/
theorem C2_equalsE_amended :
    (∀ d1 d2 : RawDiscr,
      d2.dim = d1.dim → d2.dtype = d1.dtype → d2.uspace = d1.uspace →
      d2.dspace = d1.dspace → (d1.restr = none ∨ d2.restr = none) →
      d1.equalsE d2 = .error .restrictionUnavailable) ∧
    (∀ (d1 d2 : RawDiscr) (r : ROp),
      d2.dim = d1.dim → d2.dtype = d1.dtype → d2.uspace = d1.uspace →
      d2.dspace = d1.dspace → d1.restr = some r → d2.restr = some r →
      (d1.ext = none ∨ d2.ext = none) →
      d1.equalsE d2 = .error .extensionUnavailable) ∧
    (∀ (d1 d2 : RawDiscr) (r1 r2 : ROp) (e1 e2 : EOp),
      d2.dim = d1.dim → d2.dtype = d1.dtype → d2.uspace = d1.uspace →
      d2.dspace = d1.dspace → d1.restr = some r1 → d2.restr = some r2 →
      d1.ext = some e1 → d2.ext = some e2 →
      (d1.equalsE d2 = .ok true ↔ (r2 = r1 ∧ e2 = e1))) ∧
    (∀ d1 d2 : RawDiscr,
      (¬ (d2.dim = d1.dim ∧ d2.dtype = d1.dtype) ∨
        d2.uspace ≠ d1.uspace ∨ d2.dspace ≠ d1.dspace) →
      d1.equalsE d2 = .ok false) ∧
    (∀ (u : USpace) (d : DSpace) (r : ROp) (e : EOp) (o : Order)
      (disc : RawDiscr),
      mkDiscretization u d (some r) (some e) o = .ok disc →
      disc.equalsE disc = .ok true) := by
  refine ⟨?_, ?_, ?_, ?_, ?_⟩
  · intro d1 d2 h1 h2 h3 h4 h5
    rcases h5 with h5 | h5 <;>
      rcases hr2 : d2.restr with _ | r2 <;>
      simp_all [RawDiscr.equalsE]
  · intro d1 d2 r h1 h2 h3 h4 hr1 hr2 h5
    rcases h5 with h5 | h5 <;>
      rcases he2 : d2.ext with _ | e2 <;>
      simp_all [RawDiscr.equalsE]
  · intro d1 d2 r1 r2 e1 e2 h1 h2 h3 h4 hr1 hr2 he1 he2
    by_cases hr : r2 = r1 <;> by_cases he : e2 = e1 <;>
      simp_all [RawDiscr.equalsE]
  · intro d1 d2 h
    rcases h with h | h | h
    · simp [RawDiscr.equalsE, h]
    · by_cases h1 : d2.dim = d1.dim ∧ d2.dtype = d1.dtype <;>
        simp [RawDiscr.equalsE, h1, h]
    · by_cases h1 : d2.dim = d1.dim ∧ d2.dtype = d1.dtype <;>
        by_cases h2 : d2.uspace = d1.uspace <;>
        simp [RawDiscr.equalsE, h1, h2, h]
  · intro u d r e o disc h
    have heq := mkRawDiscr_ok_eq (mkDiscretization_ok_of h)
    subst heq
    simp [RawDiscr.equalsE]

/-- Witness for C2 (amended): the sample discretization, built with both
operators, is equal to itself. -/
theorem C2_equalsE_amended_witness :
    sampleDiscr.equalsE sampleDiscr = .ok true :=
  C2_equalsE_amended.2.2.2.2 sampleUSpace sampleDSpace sampleROp sampleEOp
    .rowMajor sampleDiscr (by rfl)

/-- Counterexample to claim C3: requesting interpolation kind "linear"
fails with the unsupported-interpolation error (the membership test
against `_supported_interp = ('nearest',)` rejects it), not with the
NotImplemented error — the `raise NotImplementedError` branch is
unreachable. -/
theorem C3_interp_counterexample :
    (mkDiscreteL2 sampleUSpace 3 sampleDSpace "linear" .rowMajor =
      .error .unsupportedInterpolation) ∧
    (mkDiscreteL2 sampleUSpace 3 sampleDSpace "linear" .rowMajor ≠
      .error .notYetImplemented) :=
  ⟨rfl, by decide⟩

/-- Claim C3 (amended): constructing a DiscreteL2 space with any
interpolation kind other than "nearest" — including the
recognized-but-unimplemented kind "linear" — fails with the
unsupported-interpolation error, since the supported-interpolation tuple
contains only "nearest" and the NotImplemented branch is unreachable;
for interp = "nearest" construction proceeds with a nearest-interpolation
extension operator. -/
theorem C3_interp_amended :
    (∀ (u : USpace) (grid : Nat) (d : DSpace) (interp : String) (o : Order),
      u.isL2 = true → interp ≠ "nearest" →
      mkDiscreteL2 u grid d interp o = .error .unsupportedInterpolation) ∧
    (∀ (u : USpace) (grid : Nat) (d : DSpace),
      u.isL2 = true → u.isLinear = true → d.isFn = true →
      u.field = d.field →
      mkDiscreteL2 u grid d "nearest" .rowMajor =
        .ok { dim := d.dim, dtype := d.dtype, uspace := u, dspace := d,
              restr := some (GridCollocation u grid d .rowMajor),
              ext := some (NearestInterpolation u grid d .rowMajor),
              order := .rowMajor }) := by
  constructor
  · intro u grid d interp o h1 h2
    simp [mkDiscreteL2, h1, supportedInterp, h2]
  · intro u grid d h1 h2 h3 h4
    simp [mkDiscreteL2, h1, supportedInterp, mkDiscretization, mkRawDiscr,
      checkRestr, checkExt, GridCollocation, NearestInterpolation,
      linearIfPresentR, linearIfPresentE, h2, h3, h4]

/-- Witness for C3 (amended): the unrecognized kind "cubic" on the sample
spaces fails with the unsupported-interpolation error. -/
theorem C3_interp_amended_witness :
    mkDiscreteL2 sampleUSpace 3 sampleDSpace "cubic" .rowMajor =
      .error .unsupportedInterpolation :=
  C3_interp_amended.1 sampleUSpace 3 sampleDSpace "cubic" .rowMajor
    (by rfl) (by decide)

/-- Witness for C10: the sample construction succeeds and yields matching
dimension and dtype. -/
theorem C10_dim_dtype_from_dspace_witness :
    (mkDiscretization sampleUSpace sampleDSpace (some sampleROp)
      (some sampleEOp) .rowMajor = .ok sampleDiscr) ∧
    (sampleDiscr.dspace = sampleDSpace ∧
      sampleDiscr.dim = sampleDiscr.dspace.dim ∧
      sampleDiscr.dtype = sampleDiscr.dspace.dtype) :=
  ⟨by rfl,
   C10_dim_dtype_from_dspace sampleUSpace sampleDSpace (some sampleROp)
     (some sampleEOp) .rowMajor sampleDiscr (Or.inr (by rfl))⟩

/-- Claim C5: the linear-space primitives of `Discretization` are pure
pass-through to the data space on the unwrapped ntuples: `zero()` wraps
`dspace.zero()`; linear combination stores the data space's
`a·x.ntuple + b·y.ntuple` in `z`; distance, norm, inner product and
pointwise multiplication delegate to the data space's own metric
primitives on the ntuples — and, the definitions taking nothing from the
continuous space, the metric values are unchanged when the abstract
space is replaced. -/
theorem C5_linear_primitives_passthrough {S V : Type} (disc : RawDiscr)
    (impl : FnImpl S V) :
    (Discretization.zero disc impl = ⟨disc, impl.zero⟩) ∧
    (∀ (z x y : DVec V) (a b : S),
      Discretization.lincomb disc impl z a x b y =
        { z with ntuple := impl.lincomb a x.ntuple b y.ntuple }) ∧
    (∀ x y : DVec V,
      Discretization.dist disc impl x y = impl.dist x.ntuple y.ntuple) ∧
    (∀ x : DVec V,
      Discretization.norm disc impl x = impl.norm x.ntuple) ∧
    (∀ x y : DVec V,
      Discretization.inner disc impl x y = impl.inner x.ntuple y.ntuple) ∧
    (∀ z x y : DVec V,
      Discretization.multiply disc impl z x y =
        { z with ntuple := impl.multiply x.ntuple y.ntuple }) ∧
    (∀ (u2 : USpace) (x y : DVec V),
      Discretization.dist { disc with uspace := u2 } impl x y =
          Discretization.dist disc impl x y ∧
        Discretization.norm { disc with uspace := u2 } impl x =
          Discretization.norm disc impl x ∧
        Discretization.inner { disc with uspace := u2 } impl x y =
          Discretization.inner disc impl x y) :=
  ⟨rfl, fun _ _ _ _ _ => rfl, fun _ _ => rfl, fun _ => rfl,
   fun _ _ => rfl, fun _ _ _ => rfl, fun _ _ _ => ⟨rfl, rfl, rfl⟩⟩

/-- Claim C6: every generated DiscreteLp ufunc wrapper extracts the
element's inner backing tensor and invokes the same named operation on
that tensor's facade; with no output buffer the raw result is rewrapped
into a new element of the surrounding space; with an output buffer, the
buffer's inner tensor is the backend output target and that same buffer
is returned (element id and space preserved, tensor holding the raw
result). -/
theorem C6_discretelp_delegation (f : TFacade) (self : LpElem) :
    (∀ fresh : Nat,
      wrapUfuncDiscretelp11 f self none fresh =
        ⟨fresh, self.spaceId, f.call1 self.tensor⟩) ∧
    (∀ (o : LpElem) (fresh : Nat),
      wrapUfuncDiscretelp11 f self (some o) fresh =
        { o with tensor := f.call1 self.tensor }) ∧
    (∀ (fresh1 fresh2 : Nat) (dflt : Tensor),
      wrapUfuncDiscretelp12 f self none none fresh1 fresh2 dflt =
        (⟨fresh1, self.spaceId, (f.call2 self.tensor).1⟩,
         ⟨fresh2, self.spaceId, (f.call2 self.tensor).2⟩)) ∧
    (∀ (o1 o2 : LpElem) (fresh1 fresh2 : Nat) (dflt : Tensor),
      wrapUfuncDiscretelp12 f self (some o1) (some o2) fresh1 fresh2 dflt =
        ({ o1 with tensor := (f.call2 self.tensor).1 },
         { o2 with tensor := (f.call2 self.tensor).2 })) ∧
    (∀ (e : LpElem) (fresh : Nat), e.spaceId = self.spaceId →
      wrapUfuncDiscretelp21 f self (.elemOp e) none fresh =
        ⟨fresh, self.spaceId, f.callB self.tensor (.tens e.tensor)⟩) ∧
    (∀ (e o : LpElem) (fresh : Nat), e.spaceId = self.spaceId →
      wrapUfuncDiscretelp21 f self (.elemOp e) (some o) fresh =
        { o with tensor := f.callB self.tensor (.tens e.tensor) }) ∧
    (∀ (v : Int) (fresh : Nat),
      wrapUfuncDiscretelp21 f self (.scalarOp v) none fresh =
        ⟨fresh, self.spaceId,
         f.callB self.tensor (.asIs (.scalarOp v))⟩) ∧
    (∀ (v : Int) (o : LpElem) (fresh : Nat),
      wrapUfuncDiscretelp21 f self (.scalarOp v) (some o) fresh =
        { o with tensor := f.callB self.tensor (.asIs (.scalarOp v)) }) := by
  refine ⟨fun _ => rfl, fun _ _ => rfl, fun _ _ _ => rfl,
    fun _ _ _ _ _ => rfl, ?_, ?_, fun _ _ => rfl, fun _ _ _ => rfl⟩
  · intro e fresh he
    simp [wrapUfuncDiscretelp21, he, lpSpaceElement]
  · intro e o fresh he
    simp [wrapUfuncDiscretelp21, he]

/-- Witness for C6: the member branch of the two-input wrapper on
concrete elements, with the component operation summing the tensors
head-wise. -/
theorem C6_discretelp_delegation_witness :
    wrapUfuncDiscretelp21
      ⟨id, fun t => (t, t),
       fun t a => match a with
         | .tens u => t ++ u
         | .asIs _ => t⟩
      ⟨0, 5, [1, 2]⟩ (.elemOp ⟨1, 5, [3]⟩) none 9 =
      ⟨9, 5, [1, 2, 3]⟩ := by
  have h := (C6_discretelp_delegation
    ⟨id, fun t => (t, t),
     fun t a => match a with
       | .tens u => t ++ u
       | .asIs _ => t⟩
    ⟨0, 5, [1, 2]⟩).2.2.2.2.1 ⟨1, 5, [3]⟩ 9 rfl
  simpa using h

/-- Claim C7: the two-input product-space wrapper zips component-wise
when the second operand belongs to the same product space — in
particular `op (P [a, b]) (P [c, d]) = P [op a c, op b d]` — and
broadcasts any non-member operand (a scalar, or an element of a
different product space) unchanged to every component; in both cases,
without an output buffer, the component results are reassembled into a
new element of the surrounding product space. -/
theorem C7_productspace_componentwise (cop : Int → PArg → Int) :
    (∀ self p : PElem, p.spaceId = self.spaceId →
      wrapUfuncProductspace21 cop self (.pelemOp p) none =
        ⟨self.spaceId,
         List.zipWith (fun x c => cop x (.compArg c))
           self.comps p.comps⟩) ∧
    (∀ (sid : Nat) (a b c d : Int),
      wrapUfuncProductspace21 cop ⟨sid, [a, b]⟩ (.pelemOp ⟨sid, [c, d]⟩)
          none =
        ⟨sid, [cop a (.compArg c), cop b (.compArg d)]⟩) ∧
    (∀ (self : PElem) (x2 : POperand), pMember self.spaceId x2 = false →
      wrapUfuncProductspace21 cop self x2 none =
        ⟨self.spaceId,
         self.comps.map (fun x => cop x (.otherArg x2))⟩) ∧
    (∀ (self : PElem) (v : Int),
      wrapUfuncProductspace21 cop self (.scalarOp v) none =
        ⟨self.spaceId,
         self.comps.map (fun x => cop x (.otherArg (.scalarOp v)))⟩) := by
  refine ⟨?_, ?_, ?_, ?_⟩
  · intro self p hp
    simp [wrapUfuncProductspace21, hp]
  · intro sid a b c d
    simp [wrapUfuncProductspace21]
  · intro self x2 hm
    cases x2 with
    | pelemOp p =>
      have hp : ¬ p.spaceId = self.spaceId := by
        simpa [pMember] using hm
      simp [wrapUfuncProductspace21, hp, pBroadcast]
    | scalarOp v =>
      simp [wrapUfuncProductspace21, pBroadcast]
  · intro self v
    simp [wrapUfuncProductspace21, pBroadcast]

/-- Witness for C7: component-wise addition on 2-component elements of
the same product space. -/
theorem C7_productspace_componentwise_witness :
    wrapUfuncProductspace21
      (fun x a => match a with
        | .compArg c => x + c
        | .otherArg _ => x)
      ⟨4, [1, 2]⟩ (.pelemOp ⟨4, [10, 20]⟩) none =
      ⟨4, [11, 22]⟩ := by
  have h := (C7_productspace_componentwise
    (fun x a => match a with
      | .compArg c => x + c
      | .otherArg _ => x)).1 ⟨4, [1, 2]⟩ ⟨4, [10, 20]⟩ rfl
  simpa using h

/-- Claim C8: a reduction on a base-tensor element with no output buffer
returns a scalar raw result unchanged; a non-scalar result is wrapped in
a newly constructed space of the same concrete kind carrying over the
originating space's exponent and ordering, with an array weighting
downgraded to the no-op weighting — so the returned element never
carries an array weighting — and any other weighting carried over as-is;
with an output buffer the reduction writes into that buffer's data, the
same buffer is returned, and no space is constructed. -/
theorem C8_reduction_rebuilder (wrapped : NDArr → RawRed) (self : TElem)
    (dta : Option DTy) (fresh : Nat) :
    (∀ v : Int, wrapped self.data = .scalarV v →
      wrapReductionNumpy wrapped self none dta fresh = .scalarRet v) ∧
    (∀ a : NDArr, wrapped self.data = .arrV a →
      ∃ sp : TSpace,
        wrapReductionNumpy wrapped self none dta fresh =
          .newElemRet sp ⟨fresh, sp, a⟩ ∧
        sp.kind = self.space.kind ∧
        sp.shape = a.shape ∧
        sp.dtype = dta.getD self.space.dtype ∧
        sp.order = self.space.order ∧
        sp.exponent = self.space.exponent ∧
        (∀ w : List Int, self.space.weighting = some (.arrayW w) →
          sp.weighting = some (.noW self.space.exponent)) ∧
        ((∀ w : List Int, self.space.weighting ≠ some (.arrayW w)) →
          sp.weighting = self.space.weighting) ∧
        (∀ w : List Int, sp.weighting ≠ some (.arrayW w))) ∧
    (∀ o : TElem,
      wrapReductionNumpy wrapped self (some o) dta fresh =
        .bufRet { o with data := redIntoData (wrapped self.data) }) := by
  refine ⟨?_, ?_, fun _ => rfl⟩
  · intro v hv
    simp [wrapReductionNumpy, hv]
  · intro a ha
    refine ⟨⟨self.space.kind, a.shape, dta.getD self.space.dtype,
      self.space.order, self.space.exponent,
      (match self.space.weighting with
       | some (.arrayW _) => some (Weighting.noW self.space.exponent)
       | w => w)⟩, ?_, rfl, rfl, rfl, rfl, rfl, ?_, ?_, ?_⟩
    · simp [wrapReductionNumpy, ha, tSpaceElement]
    · intro w hw
      simp [hw]
    · intro hw
      rcases hwv : self.space.weighting with _ | w
      · simp [hwv]
      · cases w with
        | arrayW w0 => exact absurd hwv (hw w0)
        | constW c => simp [hwv]
        | noW ex => simp [hwv]
    · intro w
      rcases hwv : self.space.weighting with _ | w1
      · simp [hwv]
      · cases w1 <;> simp [hwv]

/-- Witness for C8: a reduction to a 2-entry array on an array-weighted
space — the constructed space keeps kind, exponent and ordering but
carries the no-op weighting. -/
theorem C8_reduction_rebuilder_witness :
    (∃ sp : TSpace,
      wrapReductionNumpy (fun _ => .arrV ⟨[2], [5, 6]⟩)
          ⟨0, ⟨3, [2, 2], .float64, .rowMajor, some 2,
               some (.arrayW [1, 1, 1, 1])⟩, ⟨[2, 2], [9, 9, 9, 9]⟩⟩
          none none 7 =
        .newElemRet sp ⟨7, sp, ⟨[2], [5, 6]⟩⟩ ∧
      sp.kind = 3 ∧
      sp.shape = [2] ∧
      sp.dtype = DTy.float64 ∧
      sp.order = Order.rowMajor ∧
      sp.exponent = some 2 ∧
      sp.weighting = some (.noW (some 2)) ∧
      (∀ w : List Int, sp.weighting ≠ some (.arrayW w))) := by
  obtain ⟨sp, h1, h2, h3, h4, h5, h6, h7, _, h9⟩ :=
    (C8_reduction_rebuilder (fun _ => .arrV ⟨[2], [5, 6]⟩)
      ⟨0, ⟨3, [2, 2], .float64, .rowMajor, some 2,
           some (.arrayW [1, 1, 1, 1])⟩, ⟨[2, 2], [9, 9, 9, 9]⟩⟩
      none 7).2.1 ⟨[2], [5, 6]⟩ rfl
  exact ⟨sp, h1, h2, h3, h4, h5, h6, h7 [1, 1, 1, 1] rfl, h9⟩

/-- Claim C9: `copy()` of a discretization element makes a full data copy
of the backing ntuple into a fresh buffer and resolves it through
`space.element`, whose data-space-membership branch wraps it directly:
the copy is a distinct element with equal data, the original's buffer is
untouched by the copy, and writing into the copy's buffer leaves the
original's entries unchanged. -/
theorem C9_copy_aliasing (s : NtStore) (x : DVec Nat) (fresh : Nat)
    (hmem : (s x.ntuple).length = x.space.dspace.dim)
    (hf : fresh ≠ x.ntuple) :
    ((vecCopy s fresh x).2 = .ok ⟨x.space, fresh⟩) ∧
    ((⟨x.space, fresh⟩ : DVec Nat) ≠ x) ∧
    ((vecCopy s fresh x).1 fresh = (vecCopy s fresh x).1 x.ntuple) ∧
    ((vecCopy s fresh x).1 x.ntuple = s x.ntuple) ∧
    (∀ (i : Nat) (v : Int),
      setAt (vecCopy s fresh x).1 fresh i v x.ntuple = s x.ntuple) := by
  have hx : x.ntuple ≠ fresh := Ne.symm hf
  refine ⟨?_, ?_, ?_, ?_, ?_⟩
  · simp [vecCopy, RawDiscr.element, storeDImpl, ntupleCopy, hmem]
  · intro h
    exact hf (congrArg DVec.ntuple h)
  · simp [vecCopy, ntupleCopy, hx]
  · simp [vecCopy, ntupleCopy, hx]
  · intro i v
    simp [vecCopy, setAt, ntupleCopy, hx]

/-- Witness for C9: copying a 4-entry element of the sample
discretization into buffer 1 and overwriting the copy's first entry
leaves the original buffer's data intact. -/
theorem C9_copy_aliasing_witness :
    ((vecCopy (fun _ => [1, 2, 3, 4]) 1 ⟨sampleDiscr, 0⟩).2 =
      .ok ⟨sampleDiscr, 1⟩) ∧
    (setAt (vecCopy (fun _ => [1, 2, 3, 4]) 1 ⟨sampleDiscr, 0⟩).1
      1 0 99 0 = [1, 2, 3, 4]) := by
  have h := C9_copy_aliasing (fun _ => [1, 2, 3, 4]) ⟨sampleDiscr, 0⟩ 1
    (by decide) (by decide)
  exact ⟨h.1, h.2.2.2.2 0 99⟩

end ODL
